import Mathlib

/-!
Shallow embedding of `invoice_formats.py` (Simple-POS): the bill-format
registry, auto-layout engine and thermal optimizer.

Conventions of the embedding:
* Python strings are `List Char` where character-level slicing matters
  (thermal line formatting, item-name wrapping); plain message/category
  strings are `String`.
* Python numbers (`float` fields that only ever hold decimal literals and
  integer arithmetic) are `ℚ`; Python `int` values are `Int`.  All decimal
  literals of the source (`0.6`, `0.45`, `0.85`, `2.5`, ...) are exact as
  rationals; every place the source compares or truncates such a value has
  been checked to give the same result for the IEEE-double computation and
  the exact rational one on the values that can reach it.
* `int(x)` (truncation toward zero) is `pyInt`; the slice `s[:k]`
  (including negative `k`) is `pyTake`.
* Fallible code (`IndexError` from `lines[-1]` on an empty list,
  `ValueError` from `range(0, n, 0)`) returns `Except String _`.
-/

/-- Python `int(q)`: truncation of a rational toward zero. -/
def pyInt (q : ℚ) : Int :=
  if 0 ≤ q.num then ((q.num.toNat / q.den : Nat) : Int)
  else -(((-q.num).toNat / q.den : Nat) : Int)

/-- Python slice `l[:k]`, for a possibly negative bound `k`:
a negative bound counts from the end, clamped at zero. -/
def pyTake {α : Type} (l : List α) (k : Int) : List α :=
  if 0 ≤ k then l.take k.toNat else l.take ((l.length : Int) + k).toNat

/-- Python `str.split()` helper: accumulates the current word (reversed). -/
def pySplitGo : List Char → List Char → List (List Char)
  | [], cur => if cur.isEmpty then [] else [cur.reverse]
  | c :: rest, cur =>
      if c.isWhitespace then
        if cur.isEmpty then pySplitGo rest [] else cur.reverse :: pySplitGo rest []
      else pySplitGo rest (c :: cur)

/-- Python `str.split()` with no arguments: split on whitespace runs,
dropping empty pieces. -/
def pySplit (s : List Char) : List (List Char) := pySplitGo s []

/-- Python `" ".join(ws)`. -/
def joinSpace (ws : List (List Char)) : List Char := List.intercalate [' '] ws

/-- The `BillSize` enum, in source enumeration order. -/
inductive BillSize
  | A5 | A4 | A3
  | HALF_LETTER | LETTER | LEGAL
  | THERMAL_57 | THERMAL_58 | THERMAL_76 | THERMAL_80
  | QUARTER_LETTER | LONG_STRIP | CASH_RECEIPT
deriving DecidableEq, Repr, Fintype

namespace BillSize

/-- Display name of each `BillSize` member. -/
def display_name : BillSize → String
  | A5 => "A5" | A4 => "A4" | A3 => "A3"
  | HALF_LETTER => "Half Letter" | LETTER => "Letter" | LEGAL => "Legal"
  | THERMAL_57 => "57mm Thermal" | THERMAL_58 => "58mm Thermal"
  | THERMAL_76 => "76mm Thermal" | THERMAL_80 => "80mm Thermal"
  | QUARTER_LETTER => "Quarter-Letter Strip" | LONG_STRIP => "Long Strip"
  | CASH_RECEIPT => "Cash Receipt"

/-- Width in mm of each `BillSize` member. -/
def width_mm : BillSize → ℚ
  | A5 => 148 | A4 => 210 | A3 => 297
  | HALF_LETTER => 140 | LETTER => 216 | LEGAL => 216
  | THERMAL_57 => 57 | THERMAL_58 => 58 | THERMAL_76 => 76 | THERMAL_80 => 80
  | QUARTER_LETTER => 108 | LONG_STRIP => 70 | CASH_RECEIPT => 109

/-- Height in mm of each `BillSize` member (0 for continuous thermal). -/
def height_mm : BillSize → ℚ
  | A5 => 210 | A4 => 297 | A3 => 420
  | HALF_LETTER => 216 | LETTER => 279 | LEGAL => 356
  | THERMAL_57 => 0 | THERMAL_58 => 0 | THERMAL_76 => 0 | THERMAL_80 => 0
  | QUARTER_LETTER => 216 | LONG_STRIP => 194 | CASH_RECEIPT => 189

/-- Category string of each `BillSize` member. -/
def category : BillSize → String
  | THERMAL_57 | THERMAL_58 | THERMAL_76 | THERMAL_80 => "thermal"
  | _ => "paper"

/-- `BillSize.is_thermal` property. -/
def is_thermal (s : BillSize) : Bool := s.category == "thermal"

/-- `BillSize.is_continuous` property. -/
def is_continuous (s : BillSize) : Bool := s.height_mm == 0

end BillSize

/-- The `LayoutStyle` enum. -/
inductive LayoutStyle
  | CLASSIC | MINIMAL | COMPACT | DETAILED
deriving DecidableEq, Repr, Fintype

/-- The `Margins` dataclass. -/
structure Margins where
  top : ℚ
  right : ℚ
  bottom : ℚ
  left : ℚ
deriving DecidableEq, Repr

namespace Margins

/-- `Margins.horizontal_total` property. -/
def horizontal_total (m : Margins) : ℚ := m.left + m.right

/-- `Margins.vertical_total` property. -/
def vertical_total (m : Margins) : ℚ := m.top + m.bottom

end Margins

/-- The `FontSettings` dataclass. -/
structure FontSettings where
  base_size : Int
  title_size : Int
  header_size : Int
  item_size : Int
  footer_size : Int
  mono_font : String := "Courier"
  sans_font : String := "Helvetica"
deriving DecidableEq, Repr

/-- `FontSettings.scale`: scale all font sizes by a factor
(`int(size * factor)` on each). -/
def FontSettings.scale (f : FontSettings) (factor : ℚ) : FontSettings :=
  { base_size := pyInt ((f.base_size : ℚ) * factor)
    title_size := pyInt ((f.title_size : ℚ) * factor)
    header_size := pyInt ((f.header_size : ℚ) * factor)
    item_size := pyInt ((f.item_size : ℚ) * factor)
    footer_size := pyInt ((f.footer_size : ℚ) * factor)
    mono_font := f.mono_font
    sans_font := f.sans_font }

/-- The `LayoutConfig` dataclass. -/
structure LayoutConfig where
  size : BillSize
  style : LayoutStyle
  margins : Margins
  fonts : FontSettings
  chars_per_line : Int
  max_qr_codes : Int
  qr_size_mm : ℚ
  logo_max_height_mm : ℚ
  show_borders : Bool
  column_widths : List (String × ℚ)
  wrap_item_names : Bool
  max_lines_per_item : Int
  page_break_threshold : ℚ
deriving DecidableEq, Repr

namespace LayoutConfig

/-- `LayoutConfig.printable_width_mm` property. -/
def printable_width_mm (c : LayoutConfig) : ℚ :=
  c.size.width_mm - c.margins.horizontal_total

/-- `LayoutConfig.printable_height_mm` property (0 for continuous sizes). -/
def printable_height_mm (c : LayoutConfig) : ℚ :=
  if c.size.is_continuous then 0 else c.size.height_mm - c.margins.vertical_total

end LayoutConfig

namespace BillFormatRegistry

/-- `BillFormatRegistry.DEFAULT_MARGINS`: default margins per category,
as the nested dict of the source. -/
def DEFAULT_MARGINS : List (String × List (String × Margins)) :=
  [("paper",
    [("large", ⟨15, 15, 15, 15⟩),
     ("medium", ⟨12, 12, 12, 12⟩),
     ("small", ⟨10, 10, 10, 10⟩),
     ("strip", ⟨5, 5, 5, 5⟩)]),
   ("thermal",
    [("standard", ⟨3, 3, 3, 3⟩),
     ("minimal", ⟨2, 2, 2, 2⟩)])]

/-- Lookup in `DEFAULT_MARGINS`; the source indexes with keys that are
always present, so the fallback value is never used. -/
def defaultMarginsGet (category key : String) : Margins :=
  (((DEFAULT_MARGINS.lookup category).getD []).lookup key).getD ⟨0, 0, 0, 0⟩

/-- `BillFormatRegistry.MIN_MARGINS`: minimum margins per category. -/
def MIN_MARGINS : List (String × Margins) :=
  [("paper", ⟨5, 5, 5, 5⟩), ("thermal", ⟨2, 2, 2, 2⟩)]

/-- `BillFormatRegistry.FONT_SCALES`: font scaling factors per size. -/
def FONT_SCALES : List (BillSize × ℚ) :=
  [(.A3, 1.2), (.A4, 1.0), (.A5, 0.85),
   (.LETTER, 1.0), (.LEGAL, 1.0), (.HALF_LETTER, 0.85),
   (.THERMAL_80, 0.8), (.THERMAL_76, 0.75), (.THERMAL_58, 0.7), (.THERMAL_57, 0.7),
   (.QUARTER_LETTER, 0.8), (.LONG_STRIP, 0.75), (.CASH_RECEIPT, 0.8)]

/-- `BillFormatRegistry.get_default_config`: default configuration for a
size/style combination. -/
def get_default_config (size : BillSize) (style : LayoutStyle) : LayoutConfig :=
  let margins :=
    if size.is_thermal then
      defaultMarginsGet "thermal" (if style = .COMPACT then "minimal" else "standard")
    else
      if size ∈ ([.A3, .LETTER, .LEGAL] : List BillSize) then
        defaultMarginsGet "paper" "large"
      else if size ∈ ([.A4] : List BillSize) then
        defaultMarginsGet "paper" "medium"
      else if size ∈ ([.A5, .HALF_LETTER] : List BillSize) then
        defaultMarginsGet "paper" "small"
      else
        defaultMarginsGet "paper" "strip"
  let base_fonts : FontSettings :=
    { base_size := 10, title_size := 16, header_size := 12
      item_size := 9, footer_size := 8 }
  let scale_factor := (FONT_SCALES.lookup size).getD 1.0
  let fonts := base_fonts.scale scale_factor
  let chars_per_line : Int :=
    if size.is_thermal then
      pyInt ((size.width_mm - margins.horizontal_total) / 2.5)
    else 0
  let max_qr_codes : Int :=
    if size.is_thermal then 1
    else if size ∈ ([.A3, .LETTER, .LEGAL] : List BillSize) then 3 else 2
  let qr_size_mm : ℚ :=
    if size.is_thermal then 15
    else if size ∈ ([.A3] : List BillSize) then 25 else 20
  let logo_max_height : ℚ :=
    if size.is_thermal then 15
    else if size ∈ ([.A3] : List BillSize) then 30 else 25
  let column_widths : List (String × ℚ) :=
    if style = .COMPACT ∨ size.is_thermal then
      [("item", 0.45), ("qty", 0.15), ("price", 0.20), ("total", 0.20)]
    else if style = .DETAILED then
      [("item", 0.35), ("description", 0.25), ("qty", 0.10),
       ("price", 0.15), ("total", 0.15)]
    else
      [("item", 0.40), ("qty", 0.15), ("price", 0.20), ("total", 0.25)]
  { size := size
    style := style
    margins := margins
    fonts := fonts
    chars_per_line := chars_per_line
    max_qr_codes := max_qr_codes
    qr_size_mm := qr_size_mm
    logo_max_height_mm := logo_max_height
    show_borders := style ≠ .MINIMAL
    column_widths := column_widths
    wrap_item_names := !size.is_thermal
    max_lines_per_item := if size.is_thermal then 1 else 3
    page_break_threshold := 0.85 }

/-- Rendering of a margin value inside a validation message: the stored
minimum margins are Python ints, which an f-string renders without a
decimal point. -/
def ratStr (q : ℚ) : String :=
  if q.den = 1 then toString q.num else toString q.num ++ "/" ++ toString q.den

/-- Error list built by `BillFormatRegistry.validate_margins`: one entry
per side whose margin is below the category minimum, in source order
(top, right, bottom, left).  The dict access
`MIN_MARGINS.get(category, MIN_MARGINS["paper"])` falls back to the
paper minimums for an unknown category. -/
def validateMarginsErrors (margins : Margins) (category : String) : List String :=
  let min_margins := (MIN_MARGINS.lookup category).getD ⟨5, 5, 5, 5⟩
  (if margins.top < min_margins.top then
    ["Top margin too small (min: " ++ ratStr min_margins.top ++ "mm)"] else [])
  ++ (if margins.right < min_margins.right then
    ["Right margin too small (min: " ++ ratStr min_margins.right ++ "mm)"] else [])
  ++ (if margins.bottom < min_margins.bottom then
    ["Bottom margin too small (min: " ++ ratStr min_margins.bottom ++ "mm)"] else [])
  ++ (if margins.left < min_margins.left then
    ["Left margin too small (min: " ++ ratStr min_margins.left ++ "mm)"] else [])

/-- `BillFormatRegistry.validate_margins`: validate margins against the
minimum requirements; returns `(valid, message)` and never throws. -/
def validate_margins (margins : Margins) (category : String) : Bool × String :=
  let errors := validateMarginsErrors margins category
  if errors.isEmpty then (true, "") else (false, String.intercalate "; " errors)

/-- `BillFormatRegistry.get_all_sizes`, in enumeration order. -/
def get_all_sizes : List BillSize :=
  [.A5, .A4, .A3, .HALF_LETTER, .LETTER, .LEGAL,
   .THERMAL_57, .THERMAL_58, .THERMAL_76, .THERMAL_80,
   .QUARTER_LETTER, .LONG_STRIP, .CASH_RECEIPT]

/-- `BillFormatRegistry.get_paper_sizes`. -/
def get_paper_sizes : List BillSize := get_all_sizes.filter (fun s => !s.is_thermal)

/-- `BillFormatRegistry.get_thermal_sizes`. -/
def get_thermal_sizes : List BillSize := get_all_sizes.filter (fun s => s.is_thermal)

/-- Distance measure of `find_closest_size`.  For a continuous size the
source computes `abs(size.width_mm - width_mm)`; for a fixed size it
computes `math.sqrt((Δw)**2 + (Δh)**2)`, of which we keep the radicand.
Every candidate list the source ever folds over is all-continuous or
all-fixed, and `sqrt` is strictly monotone on nonnegatives, so the
strict comparisons of the loop (and hence its first-win argmin) are
unchanged by dropping `sqrt`. -/
def billSizeDiff (size : BillSize) (width_mm height_mm : ℚ) : ℚ :=
  if size.is_continuous then |size.width_mm - width_mm|
  else
    (size.width_mm - width_mm) * (size.width_mm - width_mm) +
    (size.height_mm - height_mm) * (size.height_mm - height_mm)

/-- Loop of `find_closest_size`: `best_match` starts as `None`,
`min_diff` as `float('inf')` (modelled by `none`), and a candidate
replaces the best match only on a strictly smaller diff. -/
def findClosestAux (width_mm height_mm : ℚ) :
    List BillSize → Option BillSize → Option ℚ → Option BillSize
  | [], best, _ => best
  | size :: rest, best, min_diff =>
      let diff := billSizeDiff size width_mm height_mm
      match min_diff with
      | none => findClosestAux width_mm height_mm rest (some size) (some diff)
      | some m =>
          if diff < m then findClosestAux width_mm height_mm rest (some size) (some diff)
          else findClosestAux width_mm height_mm rest best (some m)

/-- Candidate list of `find_closest_size`, including the (dead, since
both size lists are nonempty) fallback to all sizes. -/
def candidateSizes (prefer_thermal : Bool) : List BillSize :=
  let sizes := if prefer_thermal then get_thermal_sizes else get_paper_sizes
  if sizes.isEmpty then get_all_sizes else sizes

/-- `BillFormatRegistry.find_closest_size`. -/
def find_closest_size (width_mm height_mm : ℚ) (prefer_thermal : Bool) :
    Option BillSize :=
  findClosestAux width_mm height_mm (candidateSizes prefer_thermal) none none

end BillFormatRegistry

/-- Result dict of `AutoLayoutEngine.calculate_item_layout`. -/
structure ItemLayout where
  display_name : List Char
  lines : List (List Char)
  truncated : Bool
deriving DecidableEq, Repr

namespace AutoLayoutEngine

/-- Word-wrapping loop of `calculate_item_layout` (paper path): greedily
fills lines of at most 40 characters, flushing the current line when the
next word does not fit; a word that alone exceeds 40 characters becomes
its own line.  The fold state is `(lines, current_line)`. -/
def wrapWords (words : List (List Char)) : List (List Char) :=
  let step : List (List Char) × List (List Char) → List Char →
      List (List Char) × List (List Char) :=
    fun acc word =>
      let lines := acc.1
      let current_line := acc.2
      if (joinSpace (current_line ++ [word])).length ≤ 40 then
        (lines, current_line ++ [word])
      else
        (if current_line.isEmpty then lines else lines ++ [joinSpace current_line],
         [word])
  let folded := words.foldl step ([], [])
  if folded.2.isEmpty then folded.1 else folded.1 ++ [joinSpace folded.2]

/-- `AutoLayoutEngine.calculate_item_layout`: layout for one item name.
The wrap path is a terminating fold by construction; the `lines[-1]`
access after limiting raises `IndexError` in Python when the truncated
list is empty (only possible for `max_lines_per_item < 1`), modelled by
`Except.error`. -/
def calculate_item_layout (config : LayoutConfig) (item_name : List Char) :
    Except String ItemLayout :=
  if config.size.is_thermal then
    let truncate := ((item_name.length : ℚ) > (config.chars_per_line : ℚ) * 0.45)
    let display_name :=
      if truncate then
        let max_chars := pyInt ((config.chars_per_line : ℚ) * 0.45 - 3)
        pyTake item_name max_chars ++ "...".toList
      else item_name
    .ok ⟨display_name, [display_name], truncate⟩
  else
    if config.wrap_item_names then
      let words := pySplit item_name
      let lines := wrapWords words
      if (lines.length : Int) > config.max_lines_per_item then
        let limited := pyTake lines config.max_lines_per_item
        match limited.getLast? with
        | none => .error "IndexError: list index out of range"
        | some last =>
            .ok ⟨item_name, limited.dropLast ++ [pyTake last (-3) ++ "...".toList], true⟩
      else .ok ⟨item_name, lines, false⟩
    else .ok ⟨item_name, [item_name], false⟩

/-- `AutoLayoutEngine.estimate_content_height`: total content height in
mm, summed exactly as in the source. -/
def estimate_content_height (config : LayoutConfig) (num_items : Int)
    (has_qr has_logo : Bool) : ℚ :=
  let height : ℚ := 0
  let height := height + (if has_logo then config.logo_max_height_mm + 5 else 0)
  let height := height + 30
  let height := height + 20
  let item_row_height : ℚ := if config.size.is_thermal then 5 else 7
  let height := height + ((num_items : ℚ) + 1) * item_row_height
  let height := height + 20
  let height := height + (if has_qr then config.qr_size_mm + 10 else 0)
  let height := height + 15
  height

/-- `AutoLayoutEngine.needs_pagination`. -/
def needs_pagination (config : LayoutConfig) (content_height_mm : ℚ) : Bool :=
  if config.size.is_continuous then false
  else
    let available_height := config.printable_height_mm
    let threshold_height := available_height * config.page_break_threshold
    decide (content_height_mm > threshold_height)

/-- Derived batch size of `calculate_page_breaks` when `items_per_page`
is falsy: `int(printable_height_mm * 0.6 / item_height)`. -/
def derivedItemsPerPage (config : LayoutConfig) : Int :=
  let available_height := config.printable_height_mm * 0.6
  let item_height : ℚ := if config.size.is_thermal then 5 else 7
  pyInt (available_height / item_height)

/-- Splitting loop of `calculate_page_breaks`:
`for i in range(0, len(items), k): pages.append(items[i:i+k])`,
for a strictly positive step `k`. -/
def chunkList {α : Type} (k : Nat) : List α → List (List α)
  | [] => []
  | x :: xs => (x :: xs.take (k - 1)) :: chunkList k (xs.drop (k - 1))
termination_by l => l.length
decreasing_by simp [List.length_drop]; omega

/-- `AutoLayoutEngine.calculate_page_breaks`.  A falsy `items_per_page`
(`None` or `0`) is replaced by the derived batch size; `range` with step
`0` raises `ValueError` (modelled by `Except.error`), and with a negative
step yields no indices, hence no pages. -/
def calculate_page_breaks {α : Type} (config : LayoutConfig) (items : List α)
    (items_per_page : Option Int) : Except String (List (List α)) :=
  if !(needs_pagination config
        (estimate_content_height config (items.length : Int) false false)) then
    .ok [items]
  else
    let ipp : Int :=
      match items_per_page with
      | none => derivedItemsPerPage config
      | some v => if v = 0 then derivedItemsPerPage config else v
    if ipp = 0 then .error "ValueError: range() arg 3 must not be zero"
    else if ipp < 0 then .ok []
    else .ok (chunkList ipp.toNat items)

end AutoLayoutEngine

namespace ThermalOptimizer

/-- `ThermalOptimizer.optimize_for_thermal`: truncate text to a width. -/
def optimize_for_thermal (text : List Char) (width_chars : Int) : List Char :=
  if (text.length : Int) ≤ width_chars then text
  else if width_chars > 3 then pyTake text (width_chars - 3) ++ "...".toList
  else pyTake text width_chars

/-- `ThermalOptimizer.format_thermal_line`: left/right aligned line.
The 60/40 split of the truncation path is `int(available * 0.6)`; for the
IEEE double `0.6` this truncation agrees with the exact rational one at
every integer (the product's rounding error never carries it across an
integer), so `pyInt` is faithful. -/
def format_thermal_line (left right : List Char) (width : Int) : List Char :=
  let padding := width - (left.length : Int) - (right.length : Int)
  if padding < 0 then
    let available := width - 3
    let left_chars := pyInt ((available : ℚ) * 0.6)
    let right_chars := available - left_chars
    let left2 := optimize_for_thermal left left_chars
    let right2 := optimize_for_thermal right right_chars
    let padding2 := width - (left2.length : Int) - (right2.length : Int)
    left2 ++ List.replicate (max padding2 1).toNat ' ' ++ right2
  else
    left ++ List.replicate (max padding 1).toNat ' ' ++ right

/-- `ThermalOptimizer.create_thermal_separator`. -/
def create_thermal_separator (width : Nat) (c : Char := '-') : List Char :=
  List.replicate width c

/-- `ThermalOptimizer.center_text`. -/
def center_text (text : List Char) (width : Int) : List Char :=
  if (text.length : Int) ≥ width then optimize_for_thermal text width
  else
    let padding := (width - (text.length : Int)) / 2
    List.replicate padding.toNat ' ' ++ text

end ThermalOptimizer

section HelperLemmas

theorem pyTake_length_of_nonneg {α : Type} (l : List α) (k : Int) (hk : 0 ≤ k) :
    (pyTake l k).length = min k.toNat l.length := by
  unfold pyTake
  rw [if_pos hk, List.length_take]

theorem pyInt_nonneg (q : ℚ) (hq : 0 ≤ q) : 0 ≤ pyInt q := by
  unfold pyInt
  rw [if_pos (Rat.num_nonneg.mpr hq)]
  exact Int.ofNat_nonneg _

theorem pyInt_le_intCast (q : ℚ) (a : Int) (hq : 0 ≤ q) (ha : 0 ≤ a)
    (h : q ≤ (a : ℚ)) : pyInt q ≤ a := by
  unfold pyInt
  rw [if_pos (Rat.num_nonneg.mpr hq)]
  have hden : 0 < q.den := q.den_pos
  have hnum : q.num ≤ a * (q.den : Int) := by
    have hq' : (q.num : ℚ) ≤ (a : ℚ) * (q.den : ℚ) := by
      have hd : (0 : ℚ) < (q.den : ℚ) := by exact_mod_cast hden
      have h2 : ((q.num : ℚ)) / ((q.den : ℚ)) ≤ (a : ℚ) := by
        rw [Rat.num_div_den]; exact h
      exact (div_le_iff₀ hd).mp h2
    exact_mod_cast hq'
  have hnat : q.num.toNat ≤ a.toNat * q.den := by
    have h1 : q.num ≤ ((a.toNat * q.den : Nat) : Int) := by
      push_cast
      rw [Int.toNat_of_nonneg ha]
      exact hnum
    omega
  have hdiv : q.num.toNat / q.den ≤ a.toNat := by
    calc q.num.toNat / q.den ≤ a.toNat * q.den / q.den :=
          Nat.div_le_div_right hnat
      _ = a.toNat := Nat.mul_div_cancel a.toNat hden
  omega

theorem optimize_for_thermal_length_le (text : List Char) (c : Int) (hc : 0 ≤ c) :
    ((ThermalOptimizer.optimize_for_thermal text c).length : Int) ≤ c := by
  unfold ThermalOptimizer.optimize_for_thermal
  split_ifs with h1 h2
  · exact h1
  · rw [List.length_append, pyTake_length_of_nonneg _ _ (by omega : (0:Int) ≤ c - 3)]
    have h3 : "...".toList.length = 3 := by decide
    rw [h3]
    push_cast
    omega
  · rw [pyTake_length_of_nonneg _ _ hc]
    push_cast
    omega

end HelperLemmas

/-- C1: the claim as frozen is false: when `len(left) + len(right)`
equals `width` exactly, the computed padding is `0` but the source forces
`max(padding, 1) = 1` separator space, producing a line of length
`width + 1`.  Concretely, `format_thermal_line("a", "b", 2)` returns
`"a b"` of length `3`, not `2`. -/
theorem C1_counterexample :
    ((ThermalOptimizer.format_thermal_line "a".toList "b".toList 2).length : Int) ≠ 2 := by
  decide

/-- C1 (amended): for every `width ≥ 3` and all strings `left`, `right`
with `len(left) + len(right) ≠ width`, `format_thermal_line` returns a
string of length exactly `width`; when the two lengths sum exactly to
`width` a single separating space is still forced and the result has
length `width + 1`. -/
theorem C1_format_thermal_line_length (left right : List Char) (width : Int)
    (h3 : 3 ≤ width)
    (hne : (left.length : Int) + (right.length : Int) ≠ width) :
    ((ThermalOptimizer.format_thermal_line left right width).length : Int) = width := by
  simp only [ThermalOptimizer.format_thermal_line]
  split_ifs with hp
  · -- truncation path: both strings together exceed the width
    have ha : (0 : Int) ≤ width - 3 := by omega
    have haQ : (0 : ℚ) ≤ ((width - 3 : Int) : ℚ) := by exact_mod_cast ha
    have hq0 : (0 : ℚ) ≤ ((width - 3 : Int) : ℚ) * 0.6 :=
      mul_nonneg haQ (by norm_num)
    have hqle : ((width - 3 : Int) : ℚ) * 0.6 ≤ ((width - 3 : Int) : ℚ) := by
      calc ((width - 3 : Int) : ℚ) * 0.6 ≤ ((width - 3 : Int) : ℚ) * 1 :=
            mul_le_mul_of_nonneg_left (by norm_num) haQ
        _ = ((width - 3 : Int) : ℚ) := mul_one _
    have hlc0 : 0 ≤ pyInt (((width - 3 : Int) : ℚ) * 0.6) := pyInt_nonneg _ hq0
    have hlcA : pyInt (((width - 3 : Int) : ℚ) * 0.6) ≤ width - 3 :=
      pyInt_le_intCast _ _ hq0 ha hqle
    have hL2 := optimize_for_thermal_length_le left _ hlc0
    have hR2 := optimize_for_thermal_length_le right
      ((width - 3) - pyInt (((width - 3 : Int) : ℚ) * 0.6)) (by omega)
    rw [List.length_append, List.length_append, List.length_replicate]
    push_cast at hlc0 hlcA hL2 hR2 ⊢
    omega
  · -- enough room: padding is nonnegative, and nonzero by hypothesis
    rw [List.length_append, List.length_append, List.length_replicate]
    push_cast
    omega

/-- Witness for the amended C1 at a concrete input. -/
theorem C1_format_thermal_line_length_witness :
    (3 : Int) ≤ 32 ∧
    (("Item".toList.length : Int) + ("9.99".toList.length : Int) ≠ 32) ∧
    ((ThermalOptimizer.format_thermal_line "Item".toList "9.99".toList 32).length : Int) = 32 :=
  ⟨by decide, by decide,
    C1_format_thermal_line_length "Item".toList "9.99".toList 32 (by decide) (by decide)⟩

/-- C3: for every size and style, the default configuration has four
strictly positive margins, and `validate_margins` accepts them for the
size's category: the registry never emits a default it would reject. -/
theorem C3_default_config_margins_valid :
    ∀ (size : BillSize) (style : LayoutStyle),
      (0 < (BillFormatRegistry.get_default_config size style).margins.top ∧
       0 < (BillFormatRegistry.get_default_config size style).margins.right ∧
       0 < (BillFormatRegistry.get_default_config size style).margins.bottom ∧
       0 < (BillFormatRegistry.get_default_config size style).margins.left) ∧
      BillFormatRegistry.validate_margins
        (BillFormatRegistry.get_default_config size style).margins size.category
        = (true, "") := by
  decide

/-- Witness instantiating C3 at a concrete size/style pair. -/
theorem C3_default_config_margins_valid_witness :
    BillFormatRegistry.validate_margins
      (BillFormatRegistry.get_default_config .A4 .CLASSIC).margins
      BillSize.A4.category = (true, "") :=
  (C3_default_config_margins_valid .A4 .CLASSIC).2

/-- Loop invariant of `find_closest_size`: starting from a best match `b`
whose diff is the current minimum, the fold either keeps `b` (and then
`b` is a minimum of the remaining candidates) or returns the first
strictly improving candidate `s`, with everything before `s` strictly
worse than `s` and everything after no better. -/
theorem findClosestAux_first_argmin (w h : ℚ) :
    ∀ (l : List BillSize) (b : BillSize),
      (BillFormatRegistry.findClosestAux w h l (some b)
          (some (BillFormatRegistry.billSizeDiff b w h)) = some b ∧
        ∀ t ∈ l, BillFormatRegistry.billSizeDiff b w h ≤
          BillFormatRegistry.billSizeDiff t w h)
      ∨ (∃ s l₁ l₂,
          BillFormatRegistry.findClosestAux w h l (some b)
            (some (BillFormatRegistry.billSizeDiff b w h)) = some s ∧
          l = l₁ ++ s :: l₂ ∧
          BillFormatRegistry.billSizeDiff s w h <
            BillFormatRegistry.billSizeDiff b w h ∧
          (∀ t ∈ l₁, BillFormatRegistry.billSizeDiff s w h <
            BillFormatRegistry.billSizeDiff t w h) ∧
          (∀ t ∈ l₂, BillFormatRegistry.billSizeDiff s w h ≤
            BillFormatRegistry.billSizeDiff t w h))
  | [], b => Or.inl ⟨rfl, by simp⟩
  | t :: rest, b => by
      simp only [BillFormatRegistry.findClosestAux]
      by_cases hlt : BillFormatRegistry.billSizeDiff t w h <
          BillFormatRegistry.billSizeDiff b w h
      · rw [if_pos hlt]
        rcases findClosestAux_first_argmin w h rest t with
          ⟨heq, hmin⟩ | ⟨s, l₁, l₂, heq, hdec, hsb, hbef, haft⟩
        · exact Or.inr ⟨t, [], rest, heq, rfl, hlt, by simp, hmin⟩
        · refine Or.inr ⟨s, t :: l₁, l₂, heq, by simp [hdec], lt_trans hsb hlt, ?_, haft⟩
          intro u hu
          rcases List.mem_cons.mp hu with rfl | hu'
          · exact hsb
          · exact hbef u hu'
      · rw [if_neg hlt]
        rcases findClosestAux_first_argmin w h rest b with
          ⟨heq, hmin⟩ | ⟨s, l₁, l₂, heq, hdec, hsb, hbef, haft⟩
        · refine Or.inl ⟨heq, ?_⟩
          intro u hu
          rcases List.mem_cons.mp hu with rfl | hu'
          · exact not_lt.mp hlt
          · exact hmin u hu'
        · refine Or.inr ⟨s, t :: l₁, l₂, heq, by simp [hdec], hsb, ?_, haft⟩
          intro u hu
          rcases List.mem_cons.mp hu with rfl | hu'
          · exact lt_of_lt_of_le hsb (not_lt.mp hlt)
          · exact hbef u hu'

/-- First-argmin property of the full fold, for a nonempty candidate
list. -/
theorem findClosestAux_spec (w h : ℚ) (l : List BillSize) (c : BillSize)
    (rest : List BillSize) (hl : l = c :: rest) :
    ∃ s l₁ l₂,
      BillFormatRegistry.findClosestAux w h l none none = some s ∧
      l = l₁ ++ s :: l₂ ∧
      (∀ t ∈ l₁, BillFormatRegistry.billSizeDiff s w h <
        BillFormatRegistry.billSizeDiff t w h) ∧
      (∀ t ∈ l, BillFormatRegistry.billSizeDiff s w h ≤
        BillFormatRegistry.billSizeDiff t w h) := by
  subst hl
  simp only [BillFormatRegistry.findClosestAux]
  rcases findClosestAux_first_argmin w h rest c with
    ⟨heq, hmin⟩ | ⟨s, l₁, l₂, heq, hdec, hsb, hbef, haft⟩
  · refine ⟨c, [], rest, heq, rfl, by simp, ?_⟩
    intro t ht
    rcases List.mem_cons.mp ht with rfl | ht'
    · exact le_refl _
    · exact hmin t ht'
  · refine ⟨s, c :: l₁, l₂, heq, by simp [hdec], ?_, ?_⟩
    · intro u hu
      rcases List.mem_cons.mp hu with rfl | hu'
      · exact hsb
      · exact hbef u hu'
    · intro u hu
      rcases List.mem_cons.mp hu with rfl | hu'
      · exact le_of_lt hsb
      · rw [hdec] at hu'
        rcases List.mem_append.mp hu' with hu₁ | hu₂
        · exact le_of_lt (hbef u hu₁)
        · rcases List.mem_cons.mp hu₂ with rfl | hu₃
          · exact le_refl _
          · exact haft u hu₃

/-- C5: the distance measure of `find_closest_size` is `|Δwidth|` for
continuous candidates and the Euclidean distance (kept squared, an
order-preserving change) over `(width, height)` for fixed candidates;
ties are broken by enumeration order — the first candidate encountered
wins, since only a strictly smaller distance replaces the best match.
In particular `find_closest_size(210, 297, prefer_thermal=False)`
returns `A4` at distance `0`. -/
theorem C5_find_closest_size_metric :
    BillFormatRegistry.find_closest_size 210 297 false = some BillSize.A4 ∧
    BillFormatRegistry.billSizeDiff BillSize.A4 210 297 = 0 ∧
    ∀ (w h : ℚ) (pt : Bool), ∃ s l₁ l₂,
      BillFormatRegistry.find_closest_size w h pt = some s ∧
      BillFormatRegistry.candidateSizes pt = l₁ ++ s :: l₂ ∧
      (∀ t ∈ l₁, BillFormatRegistry.billSizeDiff s w h <
        BillFormatRegistry.billSizeDiff t w h) ∧
      (∀ t ∈ BillFormatRegistry.candidateSizes pt,
        BillFormatRegistry.billSizeDiff s w h ≤
          BillFormatRegistry.billSizeDiff t w h) := by
  refine ⟨by with_unfolding_all rfl, by with_unfolding_all rfl, ?_⟩
  intro w h pt
  cases pt
  · exact findClosestAux_spec w h _ BillSize.A5
      [.A4, .A3, .HALF_LETTER, .LETTER, .LEGAL,
       .QUARTER_LETTER, .LONG_STRIP, .CASH_RECEIPT] (by decide)
  · exact findClosestAux_spec w h _ BillSize.THERMAL_57
      [.THERMAL_58, .THERMAL_76, .THERMAL_80] (by decide)

/-- Witness projecting C5 at the concrete A4 input. -/
theorem C5_find_closest_size_metric_witness :
    BillFormatRegistry.find_closest_size 210 297 false = some BillSize.A4 :=
  C5_find_closest_size_metric.1

/-- C6: `needs_pagination` is `false` for every continuous config at any
content height, and for every fixed-height config it is `true` exactly
when the content height strictly exceeds
`printable_height_mm * page_break_threshold`.  On the `BillSize` enum,
"thermal" and "continuous" agree (the thermal members are exactly those
with height `0`), which the last conjunct records. -/
theorem C6_needs_pagination_criterion (c : LayoutConfig) (content : ℚ) :
    (c.size.is_continuous = true →
      AutoLayoutEngine.needs_pagination c content = false) ∧
    (c.size.is_continuous = false →
      (AutoLayoutEngine.needs_pagination c content = true ↔
        content > c.printable_height_mm * c.page_break_threshold)) ∧
    (∀ s : BillSize, s.is_thermal = s.is_continuous) := by
  refine ⟨?_, ?_, by decide⟩
  · intro h
    simp [AutoLayoutEngine.needs_pagination, h]
  · intro h
    simp [AutoLayoutEngine.needs_pagination, h]

/-- Witness for C6: a thermal default config never paginates, and a
fixed-height config follows the threshold criterion. -/
theorem C6_needs_pagination_criterion_witness :
    AutoLayoutEngine.needs_pagination
      (BillFormatRegistry.get_default_config .THERMAL_80 .COMPACT) 100000 = false ∧
    (AutoLayoutEngine.needs_pagination
        (BillFormatRegistry.get_default_config .A4 .CLASSIC) 300 = true ↔
      (300 : ℚ) >
        (BillFormatRegistry.get_default_config .A4 .CLASSIC).printable_height_mm *
          (BillFormatRegistry.get_default_config .A4 .CLASSIC).page_break_threshold) :=
  ⟨(C6_needs_pagination_criterion _ 100000).1 (by with_unfolding_all rfl),
   (C6_needs_pagination_criterion _ 300).2.1 (by with_unfolding_all rfl)⟩

/-- C7: `validate_margins` is a total function returning a structured
`(valid, message)` pair (it throws nothing by construction); the result
is invalid exactly when at least one of the four sides is below the
category minimum (paper 5mm, thermal 2mm), and the error list contains
the message for a side exactly when that side fails — every failing side
is listed, not just the first. -/
theorem C7_validate_margins_failing_sides (m : Margins) (category : String)
    (mins : Margins)
    (hcat : category = "paper" ∨ category = "thermal")
    (hmins : mins = if category = "thermal" then ⟨2, 2, 2, 2⟩ else ⟨5, 5, 5, 5⟩) :
    ((BillFormatRegistry.validate_margins m category).1 = false ↔
      (m.top < mins.top ∨ m.right < mins.right ∨
       m.bottom < mins.bottom ∨ m.left < mins.left)) ∧
    (m.top < mins.top ↔
      ("Top margin too small (min: " ++ BillFormatRegistry.ratStr mins.top ++ "mm)")
        ∈ BillFormatRegistry.validateMarginsErrors m category) ∧
    (m.right < mins.right ↔
      ("Right margin too small (min: " ++ BillFormatRegistry.ratStr mins.right ++ "mm)")
        ∈ BillFormatRegistry.validateMarginsErrors m category) ∧
    (m.bottom < mins.bottom ↔
      ("Bottom margin too small (min: " ++ BillFormatRegistry.ratStr mins.bottom ++ "mm)")
        ∈ BillFormatRegistry.validateMarginsErrors m category) ∧
    (m.left < mins.left ↔
      ("Left margin too small (min: " ++ BillFormatRegistry.ratStr mins.left ++ "mm)")
        ∈ BillFormatRegistry.validateMarginsErrors m category) := by
  have h5 : BillFormatRegistry.ratStr (5 : ℚ) = "5" := by with_unfolding_all rfl
  have h2 : BillFormatRegistry.ratStr (2 : ℚ) = "2" := by with_unfolding_all rfl
  rcases hcat with rfl | rfl
  · have hm : mins = ⟨5, 5, 5, 5⟩ := by simpa using hmins
    subst hm
    by_cases c1 : m.top < (5 : ℚ) <;> by_cases c2 : m.right < (5 : ℚ) <;>
      by_cases c3 : m.bottom < (5 : ℚ) <;> by_cases c4 : m.left < (5 : ℚ) <;>
      simp [BillFormatRegistry.validate_margins,
        BillFormatRegistry.validateMarginsErrors, BillFormatRegistry.MIN_MARGINS,
        List.lookup, c1, c2, c3, c4, h5]
  · have hm : mins = ⟨2, 2, 2, 2⟩ := by simpa using hmins
    subst hm
    by_cases c1 : m.top < (2 : ℚ) <;> by_cases c2 : m.right < (2 : ℚ) <;>
      by_cases c3 : m.bottom < (2 : ℚ) <;> by_cases c4 : m.left < (2 : ℚ) <;>
      simp [BillFormatRegistry.validate_margins,
        BillFormatRegistry.validateMarginsErrors, BillFormatRegistry.MIN_MARGINS,
        List.lookup, c1, c2, c3, c4, h2]

/-- Witness for C7 at a concrete margins value failing two sides. -/
theorem C7_validate_margins_failing_sides_witness :
    (BillFormatRegistry.validate_margins ⟨1, 10, 1, 10⟩ "paper").1 = false := by
  have h := C7_validate_margins_failing_sides ⟨1, 10, 1, 10⟩ "paper" ⟨5, 5, 5, 5⟩
    (Or.inl rfl) (by with_unfolding_all rfl)
  exact h.1.mpr (Or.inl (by norm_num))

/-- C8: for any category other than `"paper"` and `"thermal"`,
`validate_margins` silently falls back to the paper minimums: the result
equals the result for category `"paper"`. -/
theorem C8_validate_margins_unknown_category (m : Margins) (category : String)
    (h1 : category ≠ "paper") (h2 : category ≠ "thermal") :
    BillFormatRegistry.validate_margins m category =
      BillFormatRegistry.validate_margins m "paper" := by
  have b1 : (category == "paper") = false := beq_eq_false_iff_ne.mpr h1
  have b2 : (category == "thermal") = false := beq_eq_false_iff_ne.mpr h2
  have e1 : BillFormatRegistry.MIN_MARGINS.lookup category = none := by
    simp [BillFormatRegistry.MIN_MARGINS, List.lookup, b1, b2]
  have e2 : BillFormatRegistry.MIN_MARGINS.lookup "paper" = some ⟨5, 5, 5, 5⟩ := by
    simp [BillFormatRegistry.MIN_MARGINS, List.lookup]
  simp [BillFormatRegistry.validate_margins, BillFormatRegistry.validateMarginsErrors,
    e1, e2]

/-- Witness for C8 at the concrete unknown category `"receipt"`. -/
theorem C8_validate_margins_unknown_category_witness :
    BillFormatRegistry.validate_margins ⟨3, 3, 3, 3⟩ "receipt" =
      BillFormatRegistry.validate_margins ⟨3, 3, 3, 3⟩ "paper" :=
  C8_validate_margins_unknown_category ⟨3, 3, 3, 3⟩ "receipt"
    (by decide) (by decide)

/-- On the `BillSize` enum, the thermal members are exactly the
continuous ones. -/
theorem BillSize.is_thermal_eq_is_continuous :
    ∀ s : BillSize, s.is_thermal = s.is_continuous := by
  decide

theorem chunkList_eq_nil_iff {α : Type} (k : Nat) (l : List α) :
    AutoLayoutEngine.chunkList k l = [] ↔ l = [] := by
  cases l <;> simp [AutoLayoutEngine.chunkList]

theorem chunkList_join {α : Type} (k : Nat) :
    ∀ l : List α, (AutoLayoutEngine.chunkList k l).flatten = l
  | [] => by simp [AutoLayoutEngine.chunkList]
  | x :: xs => by
      rw [AutoLayoutEngine.chunkList]
      simp only [List.flatten_cons]
      rw [chunkList_join k (xs.drop (k - 1))]
      simp [List.take_append_drop]
termination_by l => l.length
decreasing_by simp [List.length_drop]; omega

theorem chunkList_length {α : Type} (k : Nat) (hk : 1 ≤ k) :
    ∀ l : List α, (AutoLayoutEngine.chunkList k l).length = (l.length + k - 1) / k
  | [] => by
      simp only [AutoLayoutEngine.chunkList, List.length_nil]
      rw [Nat.div_eq_of_lt (by omega)]
  | x :: xs => by
      rw [AutoLayoutEngine.chunkList]
      simp only [List.length_cons]
      rw [chunkList_length k hk (xs.drop (k - 1)), List.length_drop]
      rw [show xs.length + 1 + k - 1 = xs.length + k from by omega,
        Nat.add_div_right _ (by omega)]
      rcases le_or_lt (k - 1) xs.length with hle | hlt
      · rw [show xs.length - (k - 1) + k - 1 = xs.length from by omega]
      · rw [show xs.length - (k - 1) + k - 1 = k - 1 from by omega,
          Nat.div_eq_of_lt (by omega), Nat.div_eq_of_lt (by omega)]
termination_by l => l.length
decreasing_by simp [List.length_drop]; omega

theorem chunkList_dropLast_length {α : Type} (k : Nat) (hk : 1 ≤ k) :
    ∀ l : List α, ∀ p ∈ (AutoLayoutEngine.chunkList k l).dropLast, p.length = k
  | [] => by simp [AutoLayoutEngine.chunkList]
  | x :: xs => by
      rw [AutoLayoutEngine.chunkList]
      rcases heq : AutoLayoutEngine.chunkList k (xs.drop (k - 1)) with _ | ⟨c, cs⟩
      · simp
      · intro p hp
        rw [List.dropLast_cons₂] at hp
        rcases List.mem_cons.mp hp with rfl | hp'
        · have hne : xs.drop (k - 1) ≠ [] := by
            intro h0
            rw [h0] at heq
            simp [AutoLayoutEngine.chunkList] at heq
          have hlen : k - 1 < xs.length := by
            by_contra hcon
            push_neg at hcon
            exact hne (List.drop_eq_nil_of_le hcon)
          simp only [List.length_cons, List.length_take]
          omega
        · exact chunkList_dropLast_length k hk (xs.drop (k - 1)) p
            (by rw [heq]; exact hp')
termination_by l => l.length
decreasing_by simp [List.length_drop]; omega

/-- C2: the claim as frozen is false: `calculate_page_breaks` first asks
`needs_pagination` about the whole list's estimated height, and when that
says no — in particular for every thermal (continuous) config, whatever
`items_per_page` was supplied — it returns the entire list as one batch.
Concretely, on the default 80mm thermal config with two items and an
explicit `items_per_page = 1`, the result is one batch `[[0, 1]]`, not
the two singleton batches `ceil(2/1) = 2` the claim demands. -/
theorem C2_counterexample :
    AutoLayoutEngine.calculate_page_breaks
      (BillFormatRegistry.get_default_config .THERMAL_80 .COMPACT)
      ([0, 1] : List Nat) (some 1) ≠ Except.ok [[0], [1]] := by
  rw [show AutoLayoutEngine.calculate_page_breaks
      (BillFormatRegistry.get_default_config .THERMAL_80 .COMPACT)
      ([0, 1] : List Nat) (some 1) = Except.ok [[0, 1]]
    from by with_unfolding_all rfl]
  simp

/-- C2 (amended): whenever the engine's pagination check over the
estimated content height reports that pagination is needed, an explicit
`items_per_page = k > 0` yields `ceil(N/k) = (N + k - 1) / k` batches,
all but the last of size exactly `k`, whose in-order concatenation is
exactly the original item list; when the check reports no pagination
(always the case for continuous configs), the whole list comes back as a
single batch regardless of `k`. -/
theorem C2_calculate_page_breaks_batches (α : Type) (c : LayoutConfig)
    (items : List α) (k : Int) (hk : 0 < k)
    (hpag : AutoLayoutEngine.needs_pagination c
      (AutoLayoutEngine.estimate_content_height c (items.length : Int) false false)
      = true) :
    ∃ pages,
      AutoLayoutEngine.calculate_page_breaks c items (some k) = Except.ok pages ∧
      pages.length = (items.length + k.toNat - 1) / k.toNat ∧
      pages.flatten = items ∧
      ∀ p ∈ pages.dropLast, p.length = k.toNat := by
  refine ⟨AutoLayoutEngine.chunkList k.toNat items, ?_, ?_, ?_, ?_⟩
  · simp [AutoLayoutEngine.calculate_page_breaks, hpag,
      show k ≠ 0 from by omega, show ¬(k < 0) from by omega]
  · exact chunkList_length k.toNat (by omega) items
  · exact chunkList_join k.toNat items
  · exact chunkList_dropLast_length k.toNat (by omega) items

/-- Witness for the amended C2: the A4 classic default config with 21
items paginates, and an explicit batch size of 4 gives 6 batches. -/
theorem C2_calculate_page_breaks_batches_witness :
    (0 : Int) < 4 ∧
    AutoLayoutEngine.needs_pagination
      (BillFormatRegistry.get_default_config .A4 .CLASSIC)
      (AutoLayoutEngine.estimate_content_height
        (BillFormatRegistry.get_default_config .A4 .CLASSIC)
        ((List.range 21).length : Int) false false) = true ∧
    ∃ pages,
      AutoLayoutEngine.calculate_page_breaks
        (BillFormatRegistry.get_default_config .A4 .CLASSIC)
        (List.range 21) (some 4) = Except.ok pages ∧
      pages.length = ((List.range 21).length + (4 : Int).toNat - 1) / (4 : Int).toNat ∧
      pages.flatten = List.range 21 ∧
      ∀ p ∈ pages.dropLast, p.length = (4 : Int).toNat :=
  ⟨by decide, by with_unfolding_all rfl,
    C2_calculate_page_breaks_batches Nat
      (BillFormatRegistry.get_default_config .A4 .CLASSIC)
      (List.range 21) 4 (by decide) (by with_unfolding_all rfl)⟩

/-- C9: the claim as frozen is false in its positivity conjunct: for
every thermal default config the printable height is `0`, so the derived
batch size `int(0 * 0.6 / 5)` is `0`, not strictly positive.  (It is
never used there: thermal configs return a single batch before the
derivation.) -/
theorem C9_counterexample :
    ¬ (0 < AutoLayoutEngine.derivedItemsPerPage
        (BillFormatRegistry.get_default_config .THERMAL_80 .COMPACT)) := by
  rw [show AutoLayoutEngine.derivedItemsPerPage
      (BillFormatRegistry.get_default_config .THERMAL_80 .COMPACT) = 0
    from by with_unfolding_all rfl]
  omega

/-- C9 (amended): a supplied `items_per_page` of `0` is treated exactly
like an omitted one (both fall back to the derived
`int(printable_height_mm * 0.6 / row_height)`); for every non-thermal
default config that derived batch size is strictly positive, and thermal
default configs return a single batch before the derivation is reached,
so the batch-splitting loop never raises on any default config. -/
theorem C9_page_breaks_falsy_items_per_page :
    (∀ (α : Type) (c : LayoutConfig) (items : List α),
      AutoLayoutEngine.calculate_page_breaks c items (some 0) =
        AutoLayoutEngine.calculate_page_breaks c items none) ∧
    (∀ (size : BillSize) (style : LayoutStyle), size.is_thermal = false →
      0 < AutoLayoutEngine.derivedItemsPerPage
        (BillFormatRegistry.get_default_config size style)) ∧
    (∀ (α : Type) (size : BillSize) (style : LayoutStyle) (items : List α),
      ∃ pages,
        AutoLayoutEngine.calculate_page_breaks
          (BillFormatRegistry.get_default_config size style) items none =
          Except.ok pages) := by
  have hpos : ∀ (size : BillSize) (style : LayoutStyle), size.is_thermal = false →
      0 < AutoLayoutEngine.derivedItemsPerPage
        (BillFormatRegistry.get_default_config size style) := by
    intro size style
    revert size style
    with_unfolding_all decide
  refine ⟨fun α c items => rfl, hpos, ?_⟩
  intro α size style items
  by_cases hp : AutoLayoutEngine.needs_pagination
      (BillFormatRegistry.get_default_config size style)
      (AutoLayoutEngine.estimate_content_height
        (BillFormatRegistry.get_default_config size style)
        (items.length : Int) false false) = true
  · have hsize : (BillFormatRegistry.get_default_config size style).size = size := rfl
    have hcont : size.is_continuous = false := by
      by_contra hc
      have hc' : size.is_continuous = true := by
        cases hcv : size.is_continuous
        · exact absurd hcv hc
        · rfl
      rw [AutoLayoutEngine.needs_pagination, hsize, hc'] at hp
      simp at hp
    have hth : size.is_thermal = false :=
      (BillSize.is_thermal_eq_is_continuous size).trans hcont
    have hk := hpos size style hth
    refine ⟨AutoLayoutEngine.chunkList
      (AutoLayoutEngine.derivedItemsPerPage
        (BillFormatRegistry.get_default_config size style)).toNat items, ?_⟩
    simp [AutoLayoutEngine.calculate_page_breaks, hp,
      show AutoLayoutEngine.derivedItemsPerPage
        (BillFormatRegistry.get_default_config size style) ≠ 0 from by omega,
      show ¬(AutoLayoutEngine.derivedItemsPerPage
        (BillFormatRegistry.get_default_config size style) < 0) from by omega]
  · have hp' : AutoLayoutEngine.needs_pagination
        (BillFormatRegistry.get_default_config size style)
        (AutoLayoutEngine.estimate_content_height
          (BillFormatRegistry.get_default_config size style)
          (items.length : Int) false false) = false := by
      cases hv : AutoLayoutEngine.needs_pagination
          (BillFormatRegistry.get_default_config size style)
          (AutoLayoutEngine.estimate_content_height
            (BillFormatRegistry.get_default_config size style)
            (items.length : Int) false false)
      · rfl
      · exact absurd hv hp
    exact ⟨[items], by simp [AutoLayoutEngine.calculate_page_breaks, hp']⟩

/-- Witness for the amended C9 at concrete configs. -/
theorem C9_page_breaks_falsy_items_per_page_witness :
    AutoLayoutEngine.calculate_page_breaks
      (BillFormatRegistry.get_default_config .A4 .CLASSIC)
      ([0, 1, 2] : List Nat) (some 0) =
      AutoLayoutEngine.calculate_page_breaks
        (BillFormatRegistry.get_default_config .A4 .CLASSIC)
        ([0, 1, 2] : List Nat) none ∧
    0 < AutoLayoutEngine.derivedItemsPerPage
      (BillFormatRegistry.get_default_config .A4 .CLASSIC) ∧
    ∃ pages,
      AutoLayoutEngine.calculate_page_breaks
        (BillFormatRegistry.get_default_config .A4 .CLASSIC)
        ([0, 1, 2] : List Nat) none = Except.ok pages :=
  ⟨C9_page_breaks_falsy_items_per_page.1 Nat
      (BillFormatRegistry.get_default_config .A4 .CLASSIC) [0, 1, 2],
   C9_page_breaks_falsy_items_per_page.2.1 .A4 .CLASSIC (by decide),
   C9_page_breaks_falsy_items_per_page.2.2 Nat .A4 .CLASSIC [0, 1, 2]⟩

theorem pySplitGo_eq_nil_of_whitespace :
    ∀ s : List Char, (∀ ch ∈ s, ch.isWhitespace = true) → pySplitGo s [] = []
  | [], _ => rfl
  | c :: rest, h => by
      have hc : c.isWhitespace = true := h c (List.mem_cons_self c rest)
      have ih := pySplitGo_eq_nil_of_whitespace rest
        (fun ch hch => h ch (List.mem_cons_of_mem c hch))
      simp [pySplitGo, hc, ih]

/-- C4: on any non-thermal config with a positive line limit (every
registry paper config has limit `3`), `calculate_item_layout` returns —
it is a terminating fold by construction, with no possible exception —
and the resulting `lines` list has at most `max_lines_per_item` entries,
for every item name, including long names with no word boundaries. -/
theorem C4_calculate_item_layout_line_bound (c : LayoutConfig)
    (item_name : List Char)
    (hth : c.size.is_thermal = false) (hmax : 1 ≤ c.max_lines_per_item) :
    ∃ r, AutoLayoutEngine.calculate_item_layout c item_name = Except.ok r ∧
      (r.lines.length : Int) ≤ c.max_lines_per_item := by
  unfold AutoLayoutEngine.calculate_item_layout
  rw [hth]
  simp only [Bool.false_eq_true, if_false]
  by_cases hw : c.wrap_item_names = true
  · rw [if_pos hw]
    set lines := AutoLayoutEngine.wrapWords (pySplit item_name) with hl
    by_cases hgt : (lines.length : Int) > c.max_lines_per_item
    · rw [if_pos hgt]
      have htk : (pyTake lines c.max_lines_per_item).length =
          c.max_lines_per_item.toNat := by
        rw [pyTake_length_of_nonneg _ _ (by omega)]
        omega
      rcases hL : (pyTake lines c.max_lines_per_item).getLast? with _ | last
      · exfalso
        rw [List.getLast?_eq_none_iff] at hL
        rw [hL] at htk
        simp at htk
        omega
      · refine ⟨_, rfl, ?_⟩
        show (((pyTake lines c.max_lines_per_item).dropLast ++
          [pyTake last (-3) ++ "...".toList]).length : Int) ≤ c.max_lines_per_item
        simp only [List.length_append, List.length_dropLast, htk,
          List.length_cons, List.length_nil]
        omega
    · rw [if_neg hgt]
      exact ⟨_, rfl,
        show (lines.length : Int) ≤ c.max_lines_per_item from by omega⟩
  · have hw' : c.wrap_item_names = false := by
      cases hwv : c.wrap_item_names
      · rfl
      · exact absurd hwv hw
    rw [if_neg (by simp [hw'])]
    refine ⟨_, rfl, ?_⟩
    simpa using hmax

/-- Witness for C4: a 60-character name with no word boundaries on the
A4 classic default config stays within the 3-line limit. -/
theorem C4_calculate_item_layout_line_bound_witness :
    (BillFormatRegistry.get_default_config .A4 .CLASSIC).size.is_thermal = false ∧
    1 ≤ (BillFormatRegistry.get_default_config .A4 .CLASSIC).max_lines_per_item ∧
    ∃ r, AutoLayoutEngine.calculate_item_layout
        (BillFormatRegistry.get_default_config .A4 .CLASSIC)
        "Supercalifragilisticexpialidociousextralongunbrokenitemname".toList
        = Except.ok r ∧
      (r.lines.length : Int) ≤
        (BillFormatRegistry.get_default_config .A4 .CLASSIC).max_lines_per_item :=
  ⟨by decide, by decide,
    C4_calculate_item_layout_line_bound
      (BillFormatRegistry.get_default_config .A4 .CLASSIC)
      "Supercalifragilisticexpialidociousextralongunbrokenitemname".toList
      (by decide) (by decide)⟩

/-- C10: on a non-thermal config with wrapping enabled (and a
nonnegative line limit, as in every registry config), an empty or
whitespace-only item name yields an empty `lines` list with
`truncated = false`; on every thermal config the `lines` list always has
exactly one entry. -/
theorem C10_calculate_item_layout_degenerate (c : LayoutConfig)
    (item_name : List Char) :
    (c.size.is_thermal = false → c.wrap_item_names = true →
      0 ≤ c.max_lines_per_item →
      (∀ ch ∈ item_name, ch.isWhitespace = true) →
      AutoLayoutEngine.calculate_item_layout c item_name =
        Except.ok ⟨item_name, [], false⟩) ∧
    (c.size.is_thermal = true →
      ∃ r, AutoLayoutEngine.calculate_item_layout c item_name = Except.ok r ∧
        r.lines.length = 1) := by
  constructor
  · intro hth hw hmax hws
    unfold AutoLayoutEngine.calculate_item_layout
    rw [hth]
    simp only [Bool.false_eq_true, if_false]
    rw [if_pos hw]
    rw [show pySplit item_name = [] from
      pySplitGo_eq_nil_of_whitespace item_name hws]
    rw [show AutoLayoutEngine.wrapWords [] = [] from rfl]
    rw [if_neg (by simp; omega)]
  · intro hth
    unfold AutoLayoutEngine.calculate_item_layout
    rw [hth]
    simp only [if_true]
    exact ⟨_, rfl, rfl⟩

/-- Witness for C10: whitespace-only name on the A4 classic default and
an arbitrary name on the 80mm thermal default. -/
theorem C10_calculate_item_layout_degenerate_witness :
    AutoLayoutEngine.calculate_item_layout
      (BillFormatRegistry.get_default_config .A4 .CLASSIC) "   ".toList =
      Except.ok ⟨"   ".toList, [], false⟩ ∧
    ∃ r, AutoLayoutEngine.calculate_item_layout
        (BillFormatRegistry.get_default_config .THERMAL_80 .COMPACT)
        "Masala Chai".toList = Except.ok r ∧
      r.lines.length = 1 :=
  ⟨(C10_calculate_item_layout_degenerate
      (BillFormatRegistry.get_default_config .A4 .CLASSIC) "   ".toList).1
      (by decide) (by decide) (by decide) (by decide),
   (C10_calculate_item_layout_degenerate
      (BillFormatRegistry.get_default_config .THERMAL_80 .COMPACT)
      "Masala Chai".toList).2 (by decide)⟩
